import Mathlib

/-!
Verification of the chain-organization core of libbitcoin-blockchain:
the `header_organizer` and `organize_transaction` pipelines
(src/organizers/header_organizer.cpp and organize_transaction.cpp).

The two organizers are embedded as pure functions from an oracle
environment (the results their collaborators — validators, pools,
fast_chain — would return) to the trace of observable events the
pipeline performs: lock/unlock of the prioritized mutex, collaborator
calls, pool/store mutations, and the single handler invocation.
Collaborator implementations (validators, header_pool, fast_chain) are
not part of the organizer sources; their results are environment fields.
-/

namespace LibbitcoinBlockchain

/-- Result codes visible in the organizer pipelines.  `other n` stands for
any further `code` value (validator rule codes, store failure codes);
`if (ec)` in C++ is `¬ success` here. -/
inductive Code where
  | success
  | duplicate_block
  | insufficient_work
  | service_stopped
  | operation_failed
  | duplicate_transaction
  | insufficient_fee
  | dusty_transaction
  | other (n : Nat)
deriving DecidableEq, Repr

/-- Observable events of the organizer pipelines.  `poolAdd` is
`header_pool::add`, `txPoolInsert` would be an insertion into the
transaction pool (the code never emits it — see the `TODO: add to pool_`
comment in `organize_transaction::handle_connect`), `reorganize` and
`storeTx` are the two mutating fast_chain operations. -/
inductive Event where
  | lockHigh
  | unlockHigh
  | lockLow
  | unlockLow
  | getBranch
  | acceptCall
  | connectCall
  | existsCheck
  | getWorkCall (overcome : Nat) (aboveHeight : Nat) (candidate : Bool)
  | poolAdd (top : Nat) (height : Nat)
  | txPoolInsert (tx : Nat)
  | reorganize (forkPoint : Nat × Nat) (headers : List Nat)
  | storeTx (tx : Nat)
  | handlerInvoke (c : Code)
deriving DecidableEq, Repr

/-- Modelled from the spec: `header_branch` (pools/header_branch.hpp) is not
under src/.  Per spec §4.2/§3 a branch is an ordered header sequence rooted
at an indexed fork point, with cumulative work computed at construction;
headers are identified by their hash (a `Nat` here), `work` is the 256-bit
cumulative proof of work. -/
structure HeaderBranch where
  headers : List Nat
  forkHeight : Nat
  forkHash : Nat
  work : Nat
deriving DecidableEq, Repr

/-- `header_branch::empty`. -/
def HeaderBranch.isEmptyBranch (b : HeaderBranch) : Bool :=
  b.headers.isEmpty

/-- `header_branch::height` — the fork point height (spec §4.2). -/
def HeaderBranch.height (b : HeaderBranch) : Nat :=
  b.forkHeight

/-- `header_branch::top` — the last header of the branch. -/
def HeaderBranch.top (b : HeaderBranch) : Nat :=
  b.headers.getLastD 0

/-- `header_branch::top_height` — fork height plus branch length (spec §4.2). -/
def HeaderBranch.topHeight (b : HeaderBranch) : Nat :=
  b.forkHeight + b.headers.length

/-- `header_branch::fork_point` — (height, hash) of the indexed ancestor. -/
def HeaderBranch.forkPoint (b : HeaderBranch) : Nat × Nat :=
  (b.forkHeight, b.forkHash)

/-- Oracle environment for one `header_organizer::organize` call: the
results its collaborators return on this call.  `stoppedAtAccept` is the
value of the atomic `stopped_` flag at the moment `handle_accept` reads it
(the only read of the flag in the header pipeline); `getWork` is
`fast_chain::get_work`'s out-parameter, `none` when `get_work` returns
false. -/
structure HeaderEnv where
  check : Code
  branch : HeaderBranch
  stoppedAtAccept : Bool
  acceptCode : Code
  getWork : Option Nat
  reorganizeCode : Code
deriving DecidableEq, Repr

/-- `header_organizer::handle_accept` (header_organizer.cpp lines 134-188):
events it performs and the code it passes to its completion handler. -/
def headerHandleAccept (env : HeaderEnv) : List Event × Code :=
  if env.stoppedAtAccept then
    ([], Code.service_stopped)
  else if env.acceptCode ≠ Code.success then
    ([], env.acceptCode)
  else
    match env.getWork with
    | none =>
        ([Event.getWorkCall env.branch.work env.branch.height true],
         Code.operation_failed)
    | some required_work =>
        if env.branch.work ≤ required_work then
          ([Event.getWorkCall env.branch.work env.branch.height true,
            Event.poolAdd env.branch.top env.branch.topHeight],
           Code.insufficient_work)
        else
          ([Event.getWorkCall env.branch.work env.branch.height true,
            Event.reorganize env.branch.forkPoint env.branch.headers],
           env.reorganizeCode)

/-- `header_organizer::organize` (header_organizer.cpp lines 80-118)
together with `handle_complete` (lines 121-128): the full event trace of
one call.  `handle_complete` unlocks the high-priority mutex and then
invokes the caller handler; a check failure invokes the handler directly
without ever taking the lock. -/
def organizeHeader (env : HeaderEnv) : List Event :=
  if env.check ≠ Code.success then
    [Event.handlerInvoke env.check]
  else if env.branch.isEmptyBranch then
    [Event.lockHigh, Event.getBranch,
     Event.unlockHigh, Event.handlerInvoke Code.duplicate_block]
  else
    [Event.lockHigh, Event.getBranch, Event.acceptCall]
      ++ (headerHandleAccept env).1
      ++ [Event.unlockHigh, Event.handlerInvoke (headerHandleAccept env).2]

/-- The codes the caller handler receives, in order.  "Invoked exactly
once with code c" is `handlerCodes t = [c]`. -/
def handlerCodes (t : List Event) : List Code :=
  t.filterMap fun e =>
    match e with
    | Event.handlerInvoke c => some c
    | _ => none

/-- The mutating fast_chain operations (`reorganize`, `store`) occurring
in a trace.  All other events are reads or touch only the in-memory
pools. -/
def fastChainWrites (t : List Event) : List Event :=
  t.filter fun e =>
    match e with
    | Event.reorganize _ _ => true
    | Event.storeTx _ => true
    | _ => false

/-- Fast_chain state abstracted as the journal of mutating operations
applied to it; a call leaves the state bit-identical exactly when it
appends no write. -/
def applyWrites (st : List Event) (t : List Event) : List Event :=
  st ++ fastChainWrites t

/-- The transaction as the fee and dust policies consume it: serialized
size at canonical version, signature operation count, paid fees (all
`uint64` in the source), and output values (for `is_dusty`).  `id` is the
transaction hash. -/
structure Tx where
  id : Nat
  serializedSize : Nat
  sigOps : Nat
  fees : Nat
  outputs : List Nat
deriving DecidableEq, Repr

/-- Modelled from the spec: `chain::transaction::is_dusty` lives in
libbitcoin-system, not under src/.  Spec §4.5 (Policy — dust): reject if
any output value is below `minimum_output_satoshis`. -/
def Tx.isDusty (t : Tx) (minimumOutput : Nat) : Bool :=
  t.outputs.any fun v => v < minimumOutput

/-- The configuration fields `organize_transaction` consumes
(blockchain settings).  The two fee rates are `float` in the source;
they are embedded as exact rationals. -/
structure Settings where
  byte_fee_satoshis : ℚ
  sigop_fee_satoshis : ℚ
  minimum_output_satoshis : Nat
deriving DecidableEq, Repr

/-- `organize_transaction::sufficient_fee` (organize_transaction.cpp
lines 238-272).  Float arithmetic is embedded as exact rational
arithmetic; `static_cast<uint64_t>` of the non-negative sum is its
floor. -/
def sufficient_fee (s : Settings) (tx : Tx) : Bool :=
  if s.byte_fee_satoshis = 0 ∧ s.sigop_fee_satoshis = 0 then
    true
  else
    let byte : ℚ :=
      if s.byte_fee_satoshis > 0 then
        s.byte_fee_satoshis * tx.serializedSize
      else 0
    let sigop : ℚ :=
      if s.sigop_fee_satoshis > 0 then
        s.sigop_fee_satoshis * tx.sigOps
      else 0
    let price : Nat := max 1 (Int.toNat ⌊byte + sigop⌋)
    tx.fees ≥ price

/-- Oracle environment for one `organize_transaction::organize` call.
The three `stoppedAt…` fields are the values of the atomic `stopped_`
flag at its three reads: after acquiring the low-priority lock, at the
head of `handle_accept`, and at the head of `handle_connect`. -/
structure TxEnv where
  settings : Settings
  tx : Tx
  check : Code
  stoppedAtEntry : Bool
  txExists : Bool
  stoppedAtAccept : Bool
  acceptCode : Code
  stoppedAtConnect : Bool
  connectCode : Code
  storeCode : Code
deriving DecidableEq, Repr

/-- `organize_transaction::handle_connect` (organize_transaction.cpp
lines 202-233): events and the code signalled to the completion
promise.  Note there is no pool insertion before `fast_chain_.store`
(the source's `TODO: add to pool_`). -/
def txHandleConnect (env : TxEnv) : List Event × Code :=
  if env.stoppedAtConnect then
    ([], Code.service_stopped)
  else if env.connectCode ≠ Code.success then
    ([], env.connectCode)
  else
    ([Event.storeTx env.tx.id], env.storeCode)

/-- `organize_transaction::handle_accept` (organize_transaction.cpp
lines 161-199): stopped test, accept result, fee policy, dust policy,
then `validator_.connect` whose callback is `handle_connect`. -/
def txHandleAccept (env : TxEnv) : List Event × Code :=
  if env.stoppedAtAccept then
    ([], Code.service_stopped)
  else if env.acceptCode ≠ Code.success then
    ([], env.acceptCode)
  else if ¬ sufficient_fee env.settings env.tx then
    ([], Code.insufficient_fee)
  else if env.tx.isDusty env.settings.minimum_output_satoshis then
    ([], Code.dusty_transaction)
  else
    (Event.connectCall :: (txHandleConnect env).1, (txHandleConnect env).2)

/-- `organize_transaction::organize` (organize_transaction.cpp lines
85-147): the full event trace of one call.  The completion signal is the
rendezvous by which the callback chain's final code reaches the calling
thread, which then unlocks the low-priority mutex and invokes the caller
handler; a check failure invokes the handler directly without taking the
lock. -/
def organizeTx (env : TxEnv) : List Event :=
  if env.check ≠ Code.success then
    [Event.handlerInvoke env.check]
  else if env.stoppedAtEntry then
    [Event.lockLow, Event.unlockLow, Event.handlerInvoke Code.service_stopped]
  else if env.txExists then
    [Event.lockLow, Event.existsCheck,
     Event.unlockLow, Event.handlerInvoke Code.duplicate_transaction]
  else
    [Event.lockLow, Event.existsCheck, Event.acceptCall]
      ++ (txHandleAccept env).1
      ++ [Event.unlockLow, Event.handlerInvoke (txHandleAccept env).2]

/-- Lock discipline scanner for the single prioritized mutex: locks are
well nested (never re-locked, never unlocked when free), the trace ends
unlocked, and every handler invocation happens while the mutex is not
held. -/
def locksOk : List Event → Bool → Bool
  | [], locked => !locked
  | e :: rest, locked =>
    match e with
    | Event.lockHigh => !locked && locksOk rest true
    | Event.lockLow => !locked && locksOk rest true
    | Event.unlockHigh => locked && locksOk rest false
    | Event.unlockLow => locked && locksOk rest false
    | Event.handlerInvoke _ => !locked && locksOk rest locked
    | _ => locksOk rest locked

/-- Pool insertions into the transaction pool occurring in a trace. -/
def txPoolInsertions (t : List Event) : List Event :=
  t.filter fun e =>
    match e with
    | Event.txPoolInsert _ => true
    | _ => false

/-- Events that neither take or release the mutex nor invoke the
handler; the lock scanner and the handler-code extractor are transparent
to them. -/
def isNeutral (e : Event) : Bool :=
  match e with
  | Event.lockHigh => false
  | Event.lockLow => false
  | Event.unlockHigh => false
  | Event.unlockLow => false
  | Event.handlerInvoke _ => false
  | _ => true

-- Concrete environments used by witnesses and counterexamples.

/-- A branch of one header (hash 11) above fork point (5, 99), work 10. -/
def sampleBranch : HeaderBranch :=
  { headers := [11], forkHeight := 5, forkHash := 99, work := 10 }

/-- Header call whose branch out-works the candidate chain (10 > 3). -/
def headerEnvCommit : HeaderEnv :=
  { check := Code.success, branch := sampleBranch, stoppedAtAccept := false,
    acceptCode := Code.success, getWork := some 3,
    reorganizeCode := Code.success }

/-- Header call with equal work (10 = 10): first-seen wins. -/
def headerEnvEqualWork : HeaderEnv :=
  { check := Code.success, branch := sampleBranch, stoppedAtAccept := false,
    acceptCode := Code.success, getWork := some 10,
    reorganizeCode := Code.success }

/-- Header call whose `get_branch` returns the empty branch. -/
def headerEnvDuplicate : HeaderEnv :=
  { check := Code.success,
    branch := { headers := [], forkHeight := 0, forkHash := 0, work := 0 },
    stoppedAtAccept := false, acceptCode := Code.success, getWork := none,
    reorganizeCode := Code.success }

/-- Header call on a stopped organizer that meets the empty branch. -/
def headerEnvStoppedDuplicate : HeaderEnv :=
  { check := Code.success,
    branch := { headers := [], forkHeight := 0, forkHash := 0, work := 0 },
    stoppedAtAccept := true, acceptCode := Code.success, getWork := none,
    reorganizeCode := Code.success }

/-- Header call whose context-free check fails, on a stopped organizer. -/
def headerEnvCheckFail : HeaderEnv :=
  { check := Code.other 2,
    branch := sampleBranch, stoppedAtAccept := true,
    acceptCode := Code.success, getWork := none,
    reorganizeCode := Code.success }

/-- Header call where acceptance fails with a validator rule code. -/
def headerEnvAcceptFail : HeaderEnv :=
  { check := Code.success, branch := sampleBranch, stoppedAtAccept := false,
    acceptCode := Code.other 3, getWork := none,
    reorganizeCode := Code.success }

/-- Header call stopped by the time acceptance completes, with a
validator error pending. -/
def headerEnvStoppedAccept : HeaderEnv :=
  { check := Code.success, branch := sampleBranch, stoppedAtAccept := true,
    acceptCode := Code.other 3, getWork := none,
    reorganizeCode := Code.success }

/-- Header call whose `fast_chain::reorganize` fails (fatal path). -/
def headerEnvFatal : HeaderEnv :=
  { check := Code.success, branch := sampleBranch, stoppedAtAccept := false,
    acceptCode := Code.success, getWork := some 3,
    reorganizeCode := Code.other 7 }

/-- Fee-free settings with the standard dust threshold. -/
def sampleSettings : Settings :=
  { byte_fee_satoshis := 0, sigop_fee_satoshis := 0,
    minimum_output_satoshis := 546 }

/-- A zero-fee transaction (hash 42) with one non-dust output. -/
def sampleTx : Tx :=
  { id := 42, serializedSize := 250, sigOps := 2, fees := 0,
    outputs := [1000] }

/-- Transaction call that passes every step and is stored. -/
def txEnvStored : TxEnv :=
  { settings := sampleSettings, tx := sampleTx, check := Code.success,
    stoppedAtEntry := false, txExists := false, stoppedAtAccept := false,
    acceptCode := Code.success, stoppedAtConnect := false,
    connectCode := Code.success, storeCode := Code.success }

/-- Transaction call finding the organizer stopped at entry. -/
def txEnvStoppedEntry : TxEnv :=
  { settings := sampleSettings, tx := sampleTx, check := Code.success,
    stoppedAtEntry := true, txExists := false, stoppedAtAccept := false,
    acceptCode := Code.success, stoppedAtConnect := false,
    connectCode := Code.success, storeCode := Code.success }

/-- Transaction call stopped by the time connect completes. -/
def txEnvStoppedConnect : TxEnv :=
  { settings := sampleSettings, tx := sampleTx, check := Code.success,
    stoppedAtEntry := false, txExists := false, stoppedAtAccept := false,
    acceptCode := Code.success, stoppedAtConnect := true,
    connectCode := Code.success, storeCode := Code.success }

/-- Transaction call whose context-free check fails, stopped throughout. -/
def txEnvCheckFail : TxEnv :=
  { settings := sampleSettings, tx := sampleTx, check := Code.other 4,
    stoppedAtEntry := true, txExists := false, stoppedAtAccept := true,
    acceptCode := Code.success, stoppedAtConnect := true,
    connectCode := Code.success, storeCode := Code.success }

/-- Transaction call stopped by the time acceptance completes, with a
validator error pending. -/
def txEnvStoppedAccept : TxEnv :=
  { settings := sampleSettings, tx := sampleTx, check := Code.success,
    stoppedAtEntry := false, txExists := false, stoppedAtAccept := true,
    acceptCode := Code.other 5, stoppedAtConnect := false,
    connectCode := Code.success, storeCode := Code.success }

/-- One-satoshi-per-byte settings, no sigop fee. -/
def feeSettings : Settings :=
  { byte_fee_satoshis := 1, sigop_fee_satoshis := 0,
    minimum_output_satoshis := 546 }

/-- A transaction paying exactly the computed price (250 satoshis for
250 bytes at one satoshi per byte). -/
def exactFeeTx : Tx :=
  { id := 43, serializedSize := 250, sigOps := 2, fees := 250,
    outputs := [1000] }

/-- The fee price as the spec states it (§4.5):
`max(1, ⌊byte_fee · serialized_size + sigop_fee · sigop_count⌋)`, with
no conditional zeroing of the two terms. -/
def priceSpec (s : Settings) (tx : Tx) : Nat :=
  max 1 (Int.toNat
    ⌊s.byte_fee_satoshis * tx.serializedSize
      + s.sigop_fee_satoshis * tx.sigOps⌋)

-- Helper lemmas shared by the claim theorems.

theorem handlerCodes_append (a b : List Event) :
    handlerCodes (a ++ b) = handlerCodes a ++ handlerCodes b := by
  simp [handlerCodes]

theorem locksOk_cons_neutral (e : Event) (he : isNeutral e = true)
    (l : List Event) (b : Bool) : locksOk (e :: l) b = locksOk l b := by
  cases e <;> simp_all [isNeutral, locksOk]

theorem handlerCodes_cons_neutral (e : Event) (he : isNeutral e = true)
    (l : List Event) : handlerCodes (e :: l) = handlerCodes l := by
  cases e <;> simp_all [isNeutral, handlerCodes]

theorem locksOk_append_neutral (es rest : List Event) (b : Bool) :
    es.all isNeutral = true → locksOk (es ++ rest) b = locksOk rest b := by
  induction es with
  | nil => intro _; rfl
  | cons e es ih =>
      intro h
      rw [List.all_cons, Bool.and_eq_true] at h
      rw [List.cons_append, locksOk_cons_neutral e h.1, ih h.2]

theorem handlerCodes_append_neutral (es rest : List Event) :
    es.all isNeutral = true →
    handlerCodes (es ++ rest) = handlerCodes rest := by
  induction es with
  | nil => intro _; rfl
  | cons e es ih =>
      intro h
      rw [List.all_cons, Bool.and_eq_true] at h
      rw [List.cons_append, handlerCodes_cons_neutral e h.1, ih h.2]

theorem headerHandleAccept_neutral (env : HeaderEnv) :
    ((headerHandleAccept env).1).all isNeutral = true := by
  unfold headerHandleAccept
  split
  · rfl
  · split
    · rfl
    · split
      · simp [isNeutral]
      · split <;> simp [isNeutral]

theorem txHandleConnect_neutral (env : TxEnv) :
    ((txHandleConnect env).1).all isNeutral = true := by
  unfold txHandleConnect
  split
  · rfl
  · split
    · rfl
    · simp [isNeutral]

theorem txHandleAccept_neutral (env : TxEnv) :
    ((txHandleAccept env).1).all isNeutral = true := by
  unfold txHandleAccept
  split
  · rfl
  · split
    · rfl
    · split
      · rfl
      · split
        · rfl
        · simpa [isNeutral] using txHandleConnect_neutral env

theorem fastChainWrites_append (a b : List Event) :
    fastChainWrites (a ++ b) = fastChainWrites a ++ fastChainWrites b := by
  simp [fastChainWrites]

theorem handlerCodes_neutral (es : List Event)
    (hn : es.all isNeutral = true) : handlerCodes es = [] := by
  have h := handlerCodes_append_neutral es [] hn
  simpa using h

theorem headerWrap_handlerCodes (evs : List Event)
    (hn : evs.all isNeutral = true) (c : Code) :
    handlerCodes ([Event.lockHigh, Event.getBranch, Event.acceptCall]
      ++ evs ++ [Event.unlockHigh, Event.handlerInvoke c]) = [c] := by
  rw [handlerCodes_append, handlerCodes_append,
    handlerCodes_neutral evs hn]
  simp [handlerCodes]

theorem headerWrap_locksOk (evs : List Event)
    (hn : evs.all isNeutral = true) (c : Code) :
    locksOk ([Event.lockHigh, Event.getBranch, Event.acceptCall]
      ++ evs ++ [Event.unlockHigh, Event.handlerInvoke c]) false = true := by
  have h2 : locksOk (evs ++ [Event.unlockHigh, Event.handlerInvoke c]) true
      = true := by
    rw [locksOk_append_neutral evs _ true hn]; rfl
  rw [List.append_assoc]
  simpa [locksOk] using h2

theorem headerWrap_writes (evs : List Event) (c : Code) :
    fastChainWrites ([Event.lockHigh, Event.getBranch, Event.acceptCall]
      ++ evs ++ [Event.unlockHigh, Event.handlerInvoke c])
      = fastChainWrites evs := by
  simp [fastChainWrites]

theorem txWrap_handlerCodes (evs : List Event)
    (hn : evs.all isNeutral = true) (c : Code) :
    handlerCodes ([Event.lockLow, Event.existsCheck, Event.acceptCall]
      ++ evs ++ [Event.unlockLow, Event.handlerInvoke c]) = [c] := by
  rw [handlerCodes_append, handlerCodes_append,
    handlerCodes_neutral evs hn]
  simp [handlerCodes]

theorem txWrap_locksOk (evs : List Event)
    (hn : evs.all isNeutral = true) (c : Code) :
    locksOk ([Event.lockLow, Event.existsCheck, Event.acceptCall]
      ++ evs ++ [Event.unlockLow, Event.handlerInvoke c]) false = true := by
  have h2 : locksOk (evs ++ [Event.unlockLow, Event.handlerInvoke c]) true
      = true := by
    rw [locksOk_append_neutral evs _ true hn]; rfl
  rw [List.append_assoc]
  simpa [locksOk] using h2

theorem txWrap_writes (evs : List Event) (c : Code) :
    fastChainWrites ([Event.lockLow, Event.existsCheck, Event.acceptCall]
      ++ evs ++ [Event.unlockLow, Event.handlerInvoke c])
      = fastChainWrites evs := by
  simp [fastChainWrites]

theorem branch_nonempty_false (b : HeaderBranch) (h : b.headers ≠ []) :
    b.isEmptyBranch = false := by
  cases hh : b.headers with
  | nil => exact absurd hh h
  | cons a as => simp [HeaderBranch.isEmptyBranch, hh]

-- Claim theorems.

/-- C2: when `header_pool::get_branch` returns the empty branch,
`organize` releases the high-priority lock and reports `duplicate_block`
as a strict early return: the validator's `accept` is never invoked, no
work comparison happens, and neither fast_chain nor the header pool is
mutated on that path. -/
theorem empty_branch_strict_early_return (env : HeaderEnv)
    (hck : env.check = Code.success) (he : env.branch.headers = []) :
    organizeHeader env =
      [Event.lockHigh, Event.getBranch,
       Event.unlockHigh, Event.handlerInvoke Code.duplicate_block] ∧
    handlerCodes (organizeHeader env) = [Code.duplicate_block] ∧
    Event.acceptCall ∉ organizeHeader env ∧
    (∀ w h c, Event.getWorkCall w h c ∉ organizeHeader env) ∧
    (∀ t h, Event.poolAdd t h ∉ organizeHeader env) ∧
    fastChainWrites (organizeHeader env) = [] := by
  have ht : organizeHeader env =
      [Event.lockHigh, Event.getBranch,
       Event.unlockHigh, Event.handlerInvoke Code.duplicate_block] := by
    simp [organizeHeader, hck, HeaderBranch.isEmptyBranch, he]
  rw [ht]
  refine ⟨rfl, ?_, ?_, ?_, ?_, ?_⟩ <;> simp [handlerCodes, fastChainWrites]

/-- C2 witness: a concrete call on the empty branch. -/
theorem empty_branch_strict_early_return_witness :
    organizeHeader headerEnvDuplicate =
      [Event.lockHigh, Event.getBranch,
       Event.unlockHigh, Event.handlerInvoke Code.duplicate_block] :=
  (empty_branch_strict_early_return headerEnvDuplicate rfl rfl).1

/-- C9: a context-free check failure is reported synchronously with the
check's own code, before the mutex is taken and before any stopped-flag
test, in both pipelines; the trace is the bare handler invocation, so no
pool or fast_chain state is consulted or mutated. -/
theorem check_failure_synchronous :
    (∀ env : HeaderEnv, env.check ≠ Code.success →
       organizeHeader env = [Event.handlerInvoke env.check]) ∧
    (∀ env : TxEnv, env.check ≠ Code.success →
       organizeTx env = [Event.handlerInvoke env.check]) := by
  constructor
  · intro env h
    simp [organizeHeader, h]
  · intro env h
    simp [organizeTx, h]

/-- C9 witness: concrete check failures on stopped organizers. -/
theorem check_failure_synchronous_witness :
    organizeHeader headerEnvCheckFail = [Event.handlerInvoke (Code.other 2)] ∧
    organizeTx txEnvCheckFail = [Event.handlerInvoke (Code.other 4)] :=
  ⟨check_failure_synchronous.1 headerEnvCheckFail (by decide),
   check_failure_synchronous.2 txEnvCheckFail (by decide)⟩

/-- C10: in both `handle_accept` continuations the stopped flag is
tested before the validator's result code, so a stop that lands before
acceptance completes makes the handler receive `service_stopped` even
when the validator reported a different (non-success) code. -/
theorem stopped_shadows_accept_code :
    (∀ env : HeaderEnv, env.check = Code.success →
       env.branch.headers ≠ [] → env.stoppedAtAccept = true →
       env.acceptCode ≠ Code.success →
       handlerCodes (organizeHeader env) = [Code.service_stopped]) ∧
    (∀ env : TxEnv, env.check = Code.success → env.stoppedAtEntry = false →
       env.txExists = false → env.stoppedAtAccept = true →
       env.acceptCode ≠ Code.success →
       handlerCodes (organizeTx env) = [Code.service_stopped]) := by
  constructor
  · intro env hck hne hst _
    have hb := branch_nonempty_false env.branch hne
    have hha : headerHandleAccept env = ([], Code.service_stopped) := by
      simp [headerHandleAccept, hst]
    simp [organizeHeader, hck, hb, hha, handlerCodes]
  · intro env hck hse hex hst _
    have hha : txHandleAccept env = ([], Code.service_stopped) := by
      simp [txHandleAccept, hst]
    simp [organizeTx, hck, hse, hex, hha, handlerCodes]

/-- C10 witness: concrete stopped continuations with pending validator
errors. -/
theorem stopped_shadows_accept_code_witness :
    handlerCodes (organizeHeader headerEnvStoppedAccept)
      = [Code.service_stopped] ∧
    handlerCodes (organizeTx txEnvStoppedAccept)
      = [Code.service_stopped] :=
  ⟨stopped_shadows_accept_code.1 headerEnvStoppedAccept rfl (by decide) rfl
      (by decide),
   stopped_shadows_accept_code.2 txEnvStoppedAccept rfl rfl rfl rfl
      (by decide)⟩

/-- C8: an acceptance failure still releases the high-priority lock and
reports exactly the validator's code to the handler, and the rejected
branch tip is not added to the header pool (no `pool_.add` in the
trace; no fast_chain write either). -/
theorem accept_failure_releases_and_reports (env : HeaderEnv)
    (hck : env.check = Code.success) (hne : env.branch.headers ≠ [])
    (hst : env.stoppedAtAccept = false)
    (hac : env.acceptCode ≠ Code.success) :
    organizeHeader env =
      [Event.lockHigh, Event.getBranch, Event.acceptCall,
       Event.unlockHigh, Event.handlerInvoke env.acceptCode] ∧
    handlerCodes (organizeHeader env) = [env.acceptCode] ∧
    (∀ t h, Event.poolAdd t h ∉ organizeHeader env) ∧
    fastChainWrites (organizeHeader env) = [] := by
  have hb := branch_nonempty_false env.branch hne
  have hha : headerHandleAccept env = ([], env.acceptCode) := by
    simp [headerHandleAccept, hst, hac]
  have ht : organizeHeader env =
      [Event.lockHigh, Event.getBranch, Event.acceptCall,
       Event.unlockHigh, Event.handlerInvoke env.acceptCode] := by
    simp [organizeHeader, hck, hb, hha]
  rw [ht]
  refine ⟨rfl, ?_, ?_, ?_⟩ <;> simp [handlerCodes, fastChainWrites]

/-- C8 witness: a concrete validator rule failure. -/
theorem accept_failure_releases_and_reports_witness :
    organizeHeader headerEnvAcceptFail =
      [Event.lockHigh, Event.getBranch, Event.acceptCall,
       Event.unlockHigh, Event.handlerInvoke (Code.other 3)] :=
  (accept_failure_releases_and_reports headerEnvAcceptFail rfl (by decide)
      rfl (by decide)).1

/-- C1: once a branch survives the context-dependent accept, it is
committed via `fast_chain::reorganize(branch.fork_point(),
branch.headers())` exactly when its work strictly exceeds the candidate
work returned by `get_work`; with `work ≤ required_work` (equality
included — first seen wins) only `branch.top()` is added to the pool at
`branch.top_height()`, no interior header, and the handler receives
`insufficient_work`. -/
theorem work_comparison_decides_commit (env : HeaderEnv) (required : Nat)
    (hck : env.check = Code.success) (hne : env.branch.headers ≠ [])
    (hst : env.stoppedAtAccept = false)
    (hac : env.acceptCode = Code.success)
    (hgw : env.getWork = some required) :
    ((Event.reorganize env.branch.forkPoint env.branch.headers
        ∈ organizeHeader env) ↔ required < env.branch.work) ∧
    (env.branch.work ≤ required →
      organizeHeader env =
        [Event.lockHigh, Event.getBranch, Event.acceptCall,
         Event.getWorkCall env.branch.work env.branch.height true,
         Event.poolAdd env.branch.top env.branch.topHeight,
         Event.unlockHigh, Event.handlerInvoke Code.insufficient_work]) ∧
    (required < env.branch.work →
      organizeHeader env =
        [Event.lockHigh, Event.getBranch, Event.acceptCall,
         Event.getWorkCall env.branch.work env.branch.height true,
         Event.reorganize env.branch.forkPoint env.branch.headers,
         Event.unlockHigh, Event.handlerInvoke env.reorganizeCode]) := by
  have hb := branch_nonempty_false env.branch hne
  by_cases hw : env.branch.work ≤ required
  · have hha : headerHandleAccept env =
        ([Event.getWorkCall env.branch.work env.branch.height true,
          Event.poolAdd env.branch.top env.branch.topHeight],
         Code.insufficient_work) := by
      simp [headerHandleAccept, hst, hac, hgw, hw]
    have ht : organizeHeader env =
        [Event.lockHigh, Event.getBranch, Event.acceptCall,
         Event.getWorkCall env.branch.work env.branch.height true,
         Event.poolAdd env.branch.top env.branch.topHeight,
         Event.unlockHigh, Event.handlerInvoke Code.insufficient_work] := by
      simp [organizeHeader, hck, hb, hha]
    refine ⟨?_, fun _ => ht, fun hgt => absurd hgt (not_lt.mpr hw)⟩
    constructor
    · intro hmem
      rw [ht] at hmem
      simp at hmem
    · intro hlt
      exact absurd hlt (not_lt.mpr hw)
  · have hlt : required < env.branch.work := not_le.mp hw
    have hha : headerHandleAccept env =
        ([Event.getWorkCall env.branch.work env.branch.height true,
          Event.reorganize env.branch.forkPoint env.branch.headers],
         env.reorganizeCode) := by
      simp [headerHandleAccept, hst, hac, hgw, hw]
    have ht : organizeHeader env =
        [Event.lockHigh, Event.getBranch, Event.acceptCall,
         Event.getWorkCall env.branch.work env.branch.height true,
         Event.reorganize env.branch.forkPoint env.branch.headers,
         Event.unlockHigh, Event.handlerInvoke env.reorganizeCode] := by
      simp [organizeHeader, hck, hb, hha]
    refine ⟨?_, fun hle => absurd hle hw, fun _ => ht⟩
    constructor
    · intro _
      exact hlt
    · intro _
      rw [ht]
      simp

/-- C1 witness: a branch out-working the candidate chain is committed
(10 > 3); a branch of equal work (10 = 10) pools only its tip at its top
height and yields `insufficient_work`. -/
theorem work_comparison_decides_commit_witness :
    Event.reorganize (5, 99) [11] ∈ organizeHeader headerEnvCommit ∧
    organizeHeader headerEnvEqualWork =
      [Event.lockHigh, Event.getBranch, Event.acceptCall,
       Event.getWorkCall 10 5 true, Event.poolAdd 11 6,
       Event.unlockHigh, Event.handlerInvoke Code.insufficient_work] := by
  constructor
  · exact (work_comparison_decides_commit headerEnvCommit 3 rfl (by decide)
      rfl rfl rfl).1.mpr (by decide)
  · exact (work_comparison_decides_commit headerEnvEqualWork 10 rfl
      (by decide) rfl rfl rfl).2.1 (by decide)

/-- C4: on every path of either pipeline the caller handler is invoked
exactly once, the single prioritized mutex is well nested and released by
the end of the call, and the handler only ever runs while the mutex is
not held. -/
theorem handler_once_outside_lock :
    (∀ env : HeaderEnv,
       (handlerCodes (organizeHeader env)).length = 1 ∧
       locksOk (organizeHeader env) false = true) ∧
    (∀ env : TxEnv,
       (handlerCodes (organizeTx env)).length = 1 ∧
       locksOk (organizeTx env) false = true) := by
  constructor
  · intro env
    unfold organizeHeader
    split
    · constructor <;> simp [handlerCodes, locksOk]
    · split
      · constructor <;> simp [handlerCodes, locksOk]
      · constructor
        · rw [headerWrap_handlerCodes _ (headerHandleAccept_neutral env)]
          rfl
        · exact headerWrap_locksOk _ (headerHandleAccept_neutral env) _
  · intro env
    unfold organizeTx
    split
    · constructor <;> simp [handlerCodes, locksOk]
    · split
      · constructor <;> simp [handlerCodes, locksOk]
      · split
        · constructor <;> simp [handlerCodes, locksOk]
        · constructor
          · rw [txWrap_handlerCodes _ (txHandleAccept_neutral env)]
            rfl
          · exact txWrap_locksOk _ (txHandleAccept_neutral env) _

theorem txAccept_writes_accept_stopped (env : TxEnv)
    (hsa : env.stoppedAtAccept = true) :
    fastChainWrites (txHandleAccept env).1 = [] := by
  simp [txHandleAccept, hsa, fastChainWrites]

theorem txAccept_writes_connect_stopped (env : TxEnv)
    (hsc : env.stoppedAtConnect = true) :
    fastChainWrites (txHandleAccept env).1 = [] := by
  have hc : txHandleConnect env = ([], Code.service_stopped) := by
    simp [txHandleConnect, hsc]
  unfold txHandleAccept
  split
  · rfl
  · split
    · rfl
    · split
      · rfl
      · split
        · rfl
        · simp [hc, fastChainWrites]

theorem organizeTx_writes_of_accept (env : TxEnv)
    (h : fastChainWrites (txHandleAccept env).1 = []) :
    fastChainWrites (organizeTx env) = [] := by
  unfold organizeTx
  split
  · simp [fastChainWrites]
  · split
    · simp [fastChainWrites]
    · split
      · simp [fastChainWrites]
      · rw [txWrap_writes]
        exact h

/-- C5 counterexample: with the stopped flag true for the entire call,
the header organizer still takes the high-priority lock, assembles the
branch and reports `duplicate_block` — there is no stopped test at the
header pipeline's entry. -/
theorem stopped_entry_check_counterexample :
    organizeHeader headerEnvStoppedDuplicate =
      [Event.lockHigh, Event.getBranch,
       Event.unlockHigh, Event.handlerInvoke Code.duplicate_block] ∧
    handlerCodes (organizeHeader headerEnvStoppedDuplicate)
      ≠ [Code.service_stopped] := by
  constructor <;> decide

/-- C5 amended: the transaction organizer tests the stopped flag at
pipeline entry (right after taking the low-priority lock) and at each
asynchronous continuation, while the header organizer tests it only in
its accept continuation; wherever the flag is observed true the pending
callback yields `service_stopped` and the call performs no fast_chain
write. -/
theorem stopped_flag_handling :
    (∀ env : TxEnv, env.check = Code.success → env.stoppedAtEntry = true →
       organizeTx env =
         [Event.lockLow, Event.unlockLow,
          Event.handlerInvoke Code.service_stopped] ∧
       fastChainWrites (organizeTx env) = []) ∧
    (∀ env : HeaderEnv, env.stoppedAtAccept = true →
       headerHandleAccept env = ([], Code.service_stopped) ∧
       fastChainWrites (organizeHeader env) = []) ∧
    (∀ env : TxEnv, env.stoppedAtAccept = true →
       txHandleAccept env = ([], Code.service_stopped) ∧
       fastChainWrites (organizeTx env) = []) ∧
    (∀ env : TxEnv, env.stoppedAtConnect = true →
       txHandleConnect env = ([], Code.service_stopped) ∧
       fastChainWrites (organizeTx env) = []) := by
  refine ⟨?_, ?_, ?_, ?_⟩
  · intro env hck hse
    have ht : organizeTx env =
        [Event.lockLow, Event.unlockLow,
         Event.handlerInvoke Code.service_stopped] := by
      simp [organizeTx, hck, hse]
    exact ⟨ht, by rw [ht]; rfl⟩
  · intro env hst
    have hha : headerHandleAccept env = ([], Code.service_stopped) := by
      simp [headerHandleAccept, hst]
    refine ⟨hha, ?_⟩
    unfold organizeHeader
    split
    · simp [fastChainWrites]
    · split
      · simp [fastChainWrites]
      · rw [headerWrap_writes, hha]
        rfl
  · intro env hsa
    have hha : txHandleAccept env = ([], Code.service_stopped) := by
      simp [txHandleAccept, hsa]
    exact ⟨hha,
      organizeTx_writes_of_accept env (txAccept_writes_accept_stopped env hsa)⟩
  · intro env hsc
    have hhc : txHandleConnect env = ([], Code.service_stopped) := by
      simp [txHandleConnect, hsc]
    exact ⟨hhc,
      organizeTx_writes_of_accept env (txAccept_writes_connect_stopped env hsc)⟩

/-- C5 witness: a concrete stopped entry and a concrete stopped connect
continuation. -/
theorem stopped_flag_handling_witness :
    organizeTx txEnvStoppedEntry =
      [Event.lockLow, Event.unlockLow,
       Event.handlerInvoke Code.service_stopped] ∧
    txHandleConnect txEnvStoppedConnect = ([], Code.service_stopped) :=
  ⟨(stopped_flag_handling.1 txEnvStoppedEntry rfl rfl).1,
   (stopped_flag_handling.2.2.2 txEnvStoppedConnect rfl).1⟩

theorem header_nonsuccess_writes (env : HeaderEnv)
    (hns : handlerCodes (organizeHeader env) ≠ [Code.success]) :
    fastChainWrites (organizeHeader env) = [] ∨
    (handlerCodes (organizeHeader env) = [env.reorganizeCode] ∧
     env.reorganizeCode ≠ Code.success ∧
     fastChainWrites (organizeHeader env)
       = [Event.reorganize env.branch.forkPoint env.branch.headers]) := by
  by_cases h1 : env.check = Code.success
  · by_cases h2 : env.branch.isEmptyBranch = true
    · left
      simp [organizeHeader, h1, h2, fastChainWrites]
    · have h2f : env.branch.isEmptyBranch = false := Bool.eq_false_iff.mpr h2
      have ht : organizeHeader env =
          [Event.lockHigh, Event.getBranch, Event.acceptCall]
            ++ (headerHandleAccept env).1
            ++ [Event.unlockHigh,
                Event.handlerInvoke (headerHandleAccept env).2] := by
        unfold organizeHeader
        rw [if_neg (not_not_intro h1), if_neg h2]
      have hcodes : handlerCodes (organizeHeader env)
          = [(headerHandleAccept env).2] := by
        rw [ht, headerWrap_handlerCodes _ (headerHandleAccept_neutral env)]
      have hwr : fastChainWrites (organizeHeader env)
          = fastChainWrites (headerHandleAccept env).1 := by
        rw [ht, headerWrap_writes]
      by_cases h3 : env.stoppedAtAccept = true
      · left
        rw [hwr]
        simp [headerHandleAccept, h3, fastChainWrites]
      · have h3f : env.stoppedAtAccept = false := Bool.eq_false_iff.mpr h3
        by_cases h4 : env.acceptCode = Code.success
        · cases hg : env.getWork with
          | none =>
              left
              rw [hwr]
              simp [headerHandleAccept, h3f, h4, hg, fastChainWrites]
          | some required =>
              by_cases h5 : env.branch.work ≤ required
              · left
                rw [hwr]
                simp [headerHandleAccept, h3f, h4, hg, h5, fastChainWrites]
              · right
                have hha : headerHandleAccept env =
                    ([Event.getWorkCall env.branch.work env.branch.height
                        true,
                      Event.reorganize env.branch.forkPoint
                        env.branch.headers],
                     env.reorganizeCode) := by
                  simp [headerHandleAccept, h3f, h4, hg, h5]
                refine ⟨?_, ?_, ?_⟩
                · rw [hcodes, hha]
                · intro hsc
                  apply hns
                  rw [hcodes, hha, hsc]
                · rw [hwr, hha]
                  simp [fastChainWrites]
        · left
          rw [hwr]
          simp [headerHandleAccept, h3f, h4, fastChainWrites]
  · left
    simp [organizeHeader, h1, fastChainWrites]

theorem tx_nonsuccess_writes (env : TxEnv)
    (hns : handlerCodes (organizeTx env) ≠ [Code.success]) :
    fastChainWrites (organizeTx env) = [] ∨
    (handlerCodes (organizeTx env) = [env.storeCode] ∧
     env.storeCode ≠ Code.success ∧
     fastChainWrites (organizeTx env) = [Event.storeTx env.tx.id]) := by
  by_cases h1 : env.check = Code.success
  · by_cases h2 : env.stoppedAtEntry = true
    · left
      simp [organizeTx, h1, h2, fastChainWrites]
    · have h2f : env.stoppedAtEntry = false := Bool.eq_false_iff.mpr h2
      by_cases h3 : env.txExists = true
      · left
        simp [organizeTx, h1, h2f, h3, fastChainWrites]
      · have h3f : env.txExists = false := Bool.eq_false_iff.mpr h3
        have ht : organizeTx env =
            [Event.lockLow, Event.existsCheck, Event.acceptCall]
              ++ (txHandleAccept env).1
              ++ [Event.unlockLow,
                  Event.handlerInvoke (txHandleAccept env).2] := by
          unfold organizeTx
          rw [if_neg (not_not_intro h1), if_neg h2, if_neg h3]
        have hcodes : handlerCodes (organizeTx env)
            = [(txHandleAccept env).2] := by
          rw [ht, txWrap_handlerCodes _ (txHandleAccept_neutral env)]
        have hwr : fastChainWrites (organizeTx env)
            = fastChainWrites (txHandleAccept env).1 := by
          rw [ht, txWrap_writes]
        by_cases h4 : env.stoppedAtAccept = true
        · left
          rw [hwr]
          simp [txHandleAccept, h4, fastChainWrites]
        · have h4f : env.stoppedAtAccept = false := Bool.eq_false_iff.mpr h4
          by_cases h5 : env.acceptCode = Code.success
          · by_cases h6 : sufficient_fee env.settings env.tx = true
            · by_cases h7 :
                  env.tx.isDusty env.settings.minimum_output_satoshis = true
              · left
                rw [hwr]
                simp [txHandleAccept, h4f, h5, h6, h7, fastChainWrites]
              · have h7f :
                    env.tx.isDusty env.settings.minimum_output_satoshis
                      = false := Bool.eq_false_iff.mpr h7
                have hha : txHandleAccept env =
                    (Event.connectCall :: (txHandleConnect env).1,
                     (txHandleConnect env).2) := by
                  simp [txHandleAccept, h4f, h5, h6, h7f]
                by_cases h8 : env.stoppedAtConnect = true
                · left
                  rw [hwr, hha]
                  simp [txHandleConnect, h8, fastChainWrites]
                · have h8f : env.stoppedAtConnect = false :=
                    Bool.eq_false_iff.mpr h8
                  by_cases h9 : env.connectCode = Code.success
                  · right
                    have hhc : txHandleConnect env =
                        ([Event.storeTx env.tx.id], env.storeCode) := by
                      simp [txHandleConnect, h8f, h9]
                    refine ⟨?_, ?_, ?_⟩
                    · rw [hcodes, hha, hhc]
                    · intro hsc
                      apply hns
                      rw [hcodes, hha, hhc, hsc]
                    · rw [hwr, hha, hhc]
                      simp [fastChainWrites]
                  · left
                    rw [hwr, hha]
                    simp [txHandleConnect, h8f, h9, fastChainWrites]
            · left
              have h6f : sufficient_fee env.settings env.tx = false :=
                Bool.eq_false_iff.mpr h6
              rw [hwr]
              simp [txHandleAccept, h4f, h5, h6f, fastChainWrites]
          · left
            rw [hwr]
            simp [txHandleAccept, h4f, h5, fastChainWrites]
  · left
    simp [organizeTx, h1, fastChainWrites]

/-- C3 amended: on every non-success outcome other than a failure of the
single attempted fast_chain write itself, no mutating fast_chain
operation is invoked and the store state is bit-identical to the
pre-call state; when the handler's non-success code stems from
`reorganize`/`store` failing, that one write was invoked (the code then
treats the store as corrupted). -/
theorem nonsuccess_preserves_fastchain :
    (∀ env : HeaderEnv, ∀ st : List Event,
       handlerCodes (organizeHeader env) ≠ [Code.success] →
       applyWrites st (organizeHeader env) = st ∨
       (handlerCodes (organizeHeader env) = [env.reorganizeCode] ∧
        env.reorganizeCode ≠ Code.success ∧
        fastChainWrites (organizeHeader env)
          = [Event.reorganize env.branch.forkPoint env.branch.headers])) ∧
    (∀ env : TxEnv, ∀ st : List Event,
       handlerCodes (organizeTx env) ≠ [Code.success] →
       applyWrites st (organizeTx env) = st ∨
       (handlerCodes (organizeTx env) = [env.storeCode] ∧
        env.storeCode ≠ Code.success ∧
        fastChainWrites (organizeTx env)
          = [Event.storeTx env.tx.id])) := by
  constructor
  · intro env st hns
    rcases header_nonsuccess_writes env hns with h | h
    · left
      simp [applyWrites, h]
    · right
      exact h
  · intro env st hns
    rcases tx_nonsuccess_writes env hns with h | h
    · left
      simp [applyWrites, h]
    · right
      exact h

/-- C3 counterexample: a failing `reorganize` surfaces a non-success
code to the handler although a mutating fast_chain operation was invoked
on that path (the source logs the store as corrupted there), so the
claim's "no mutating FastChain operation takes effect on any non-success
path" fails for fatal codes. -/
theorem nonsuccess_preserves_fastchain_counterexample :
    handlerCodes (organizeHeader headerEnvFatal) = [Code.other 7] ∧
    Code.other 7 ≠ Code.success ∧
    fastChainWrites (organizeHeader headerEnvFatal)
      = [Event.reorganize (5, 99) [11]] ∧
    applyWrites [] (organizeHeader headerEnvFatal) ≠ [] := by
  refine ⟨?_, ?_, ?_, ?_⟩ <;> decide

/-- C3 witness: a rejected branch (validator rule failure) leaves the
fast_chain journal untouched. -/
theorem nonsuccess_preserves_fastchain_witness :
    applyWrites [] (organizeHeader headerEnvAcceptFail) = [] := by
  have h := nonsuccess_preserves_fastchain.1 headerEnvAcceptFail []
    (by decide)
  rcases h with h | h
  · exact h
  · exact absurd h.1 (by decide)

theorem txHandleAccept_noPoolInsert (env : TxEnv) :
    txPoolInsertions (txHandleAccept env).1 = [] := by
  unfold txHandleAccept
  split
  · rfl
  · split
    · rfl
    · split
      · rfl
      · split
        · rfl
        · unfold txHandleConnect
          split
          · simp [txPoolInsertions]
          · split
            · simp [txPoolInsertions]
            · simp [txPoolInsertions]

/-- C6: a fully accepted transaction (handler receives `success`) is
committed to the store by `fast_chain::store` after the successful
connect step, but — against the spec's lifecycle and round-trip law, and
against the source's own `TODO: add to pool_` — it is never inserted
into the transaction pool: no execution of `organize` performs a pool
insertion. -/
theorem connected_tx_not_inserted_into_pool :
    handlerCodes (organizeTx txEnvStored) = [Code.success] ∧
    Event.storeTx 42 ∈ organizeTx txEnvStored ∧
    txPoolInsertions (organizeTx txEnvStored) = [] ∧
    (∀ env : TxEnv, txPoolInsertions (organizeTx env) = []) := by
  refine ⟨by decide, by decide, by decide, ?_⟩
  intro env
  unfold organizeTx
  split
  · simp [txPoolInsertions]
  · split
    · simp [txPoolInsertions]
    · split
      · simp [txPoolInsertions]
      · have h := txHandleAccept_noPoolInsert env
        simp only [txPoolInsertions, List.filter_append] at h ⊢
        simp [h]

/-- C7: with both configured fees zero, `sufficient_fee` accepts every
transaction; otherwise (for non-negative configured fees, as floats are
embedded as exact rationals) it accepts exactly when `tx.fees()` reaches
`max(1, ⌊byte_fee·serialized_size + sigop_fee·sigop_count⌋)`; in
particular paying exactly the price is accepted and a zero-fee
transaction is rejected whenever any fee is configured. -/
theorem sufficient_fee_matches_spec (s : Settings) (tx : Tx)
    (hb : 0 ≤ s.byte_fee_satoshis) (hs : 0 ≤ s.sigop_fee_satoshis) :
    (s.byte_fee_satoshis = 0 ∧ s.sigop_fee_satoshis = 0 →
       sufficient_fee s tx = true) ∧
    (¬ (s.byte_fee_satoshis = 0 ∧ s.sigop_fee_satoshis = 0) →
       ((sufficient_fee s tx = true) ↔ tx.fees ≥ priceSpec s tx) ∧
       (tx.fees = priceSpec s tx → sufficient_fee s tx = true) ∧
       (tx.fees = 0 → sufficient_fee s tx = false)) := by
  constructor
  · intro hz
    unfold sufficient_fee
    rw [if_pos hz]
  · intro hnz
    have hbyte : (if s.byte_fee_satoshis > 0 then
        s.byte_fee_satoshis * (tx.serializedSize : ℚ) else 0)
        = s.byte_fee_satoshis * tx.serializedSize := by
      by_cases h : s.byte_fee_satoshis > 0
      · rw [if_pos h]
      · rw [if_neg h, le_antisymm (not_lt.mp h) hb, zero_mul]
    have hsigop : (if s.sigop_fee_satoshis > 0 then
        s.sigop_fee_satoshis * (tx.sigOps : ℚ) else 0)
        = s.sigop_fee_satoshis * tx.sigOps := by
      by_cases h : s.sigop_fee_satoshis > 0
      · rw [if_pos h]
      · rw [if_neg h, le_antisymm (not_lt.mp h) hs, zero_mul]
    have hform : sufficient_fee s tx
        = decide (tx.fees ≥ priceSpec s tx) := by
      unfold sufficient_fee
      rw [if_neg hnz]
      simp only [hbyte, hsigop, priceSpec]
    refine ⟨?_, ?_, ?_⟩
    · rw [hform]
      exact decide_eq_true_iff
    · intro heq
      rw [hform]
      exact decide_eq_true_iff.mpr (le_of_eq heq.symm)
    · intro h0
      rw [hform, h0]
      have h1 : ¬ (priceSpec s tx ≤ 0) := by
        simp [priceSpec]
      simpa using h1

/-- C7 witness: a transaction paying exactly the 250-satoshi price at
one satoshi per byte is accepted; with both fees zero a zero-fee
transaction is accepted. -/
theorem sufficient_fee_matches_spec_witness :
    sufficient_fee feeSettings exactFeeTx = true ∧
    sufficient_fee sampleSettings sampleTx = true := by
  constructor
  · exact ((sufficient_fee_matches_spec feeSettings exactFeeTx (by norm_num [feeSettings])
      (by norm_num [feeSettings])).2 (by norm_num [feeSettings])).2.1
      (by norm_num [priceSpec, feeSettings, exactFeeTx]; decide)
  · exact (sufficient_fee_matches_spec sampleSettings sampleTx
      (by norm_num [sampleSettings]) (by norm_num [sampleSettings])).1
      (by norm_num [sampleSettings])

end LibbitcoinBlockchain
